import Mathlib

/-!
# Verification of the PeaceNames tagging/retrieval backend

Shallow embedding of `src/backend/app.py` (a Flask + MySQL backend).
The relational store is modelled as lists of rows; SQL queries over it are
translated into list filters/maps/dedups that mirror the exact query text
(joins, `IN` clauses, `GROUP BY`/`HAVING`, `COUNT(DISTINCT ...)`,
`LIMIT`/`OFFSET`).  MySQL `INT` ids are modelled as `Int`; timestamps as
`Nat` (only ordering/refresh matters).
-/

namespace Peacenames

/-- A row of the `dimensions` table (columns used by the code). -/
structure Dimension where
  id : Int
  code : String
  displayOrder : Int
deriving DecidableEq, Repr

/-- A row of the `tags` table (columns used by the code). -/
structure Tag where
  id : Int
  dimensionId : Int
  nameEn : String
  parentId : Option Int
  level : Int
  displayOrder : Int
  isActive : Bool
deriving DecidableEq, Repr

/-- A row of the `files` table (columns used by the matching logic). -/
structure FileRec where
  id : Int
  userId : Int
  createdAt : Nat
deriving DecidableEq, Repr

/-- A row of the `file_tags` association table.  The schema makes
`(fileId, tagId)` a unique key (`ON DUPLICATE KEY UPDATE` in the code). -/
structure FileTag where
  fileId : Int
  tagId : Int
  assignedBy : Int
  assignedAt : Nat
deriving DecidableEq, Repr

/-- The database state: one list of rows per table.  `users` keeps only the
ids (the only user column the modelled logic depends on). -/
structure DB where
  dimensions : List Dimension
  tags : List Tag
  users : List Int
  files : List FileRec
  fileTags : List FileTag
deriving Repr

/-- `(fid, t)` is present in an association-row list. -/
def hasPair (fts : List FileTag) (fid t : Int) : Bool :=
  fts.any (fun ft => ft.fileId == fid && ft.tagId == t)

/-- The file `fid` carries tag `t` in `db` (an association row exists). -/
def hasTag (db : DB) (fid t : Int) : Bool :=
  hasPair db.fileTags fid t

/-- `COUNT(DISTINCT ft.tag_id)` restricted to `ft.tag_id IN sel` for the rows
of file `fid`: the number of distinct tag ids of `sel` the file carries. -/
def matchedCount (db : DB) (fid : Int) (sel : List Int) : Nat :=
  (sel.dedup.filter (fun t => hasTag db fid t)).length

/-- Insertion step of the sort used to model `ORDER BY`. -/
def insertBy {α : Type} (le : α → α → Bool) (a : α) : List α → List α
  | [] => [a]
  | b :: bs => if le a b then a :: b :: bs else b :: insertBy le a bs

/-- Insertion sort used to model `ORDER BY` (SQL mandates a sorted order,
not an algorithm; every property proved below is order-insensitive). -/
def sortBy {α : Type} (le : α → α → Bool) : List α → List α
  | [] => []
  | a :: as => insertBy le a (sortBy le as)

/-- `ORDER BY f.created_at DESC` (ties in unspecified order, as in SQL). -/
def sortFilesDesc (files : List FileRec) : List FileRec :=
  sortBy (fun f g => decide (g.createdAt ≤ f.createdAt)) files

/-- The tag-filtered branch of `GET /api/files` (`get_files`, the C-GRID
FILTER QUERY): join `files`/`users`/`file_tags`, keep the user's files,
restrict association rows to `ft.tag_id IN sel`, group by file and keep the
groups with `COUNT(DISTINCT ft.tag_id) = len(tag_ids)` — note the threshold
is the *length* of the parsed list, duplicates included.  Result: file ids,
newest first, before `LIMIT`/`OFFSET`. -/
def matchingFiles (db : DB) (uid : Int) (sel : List Int) : List Int :=
  ((sortFilesDesc db.files).filter (fun f =>
      f.userId == uid && db.users.contains f.userId &&
      matchedCount db f.id sel == sel.length)).map (fun f => f.id)

/-- The file ids `get_files` would page through: the filter query when a
selection was parsed, otherwise all of the user's files (both branches join
`users`). -/
def matchSet (db : DB) (uid : Int) (sel : List Int) : List Int :=
  if sel.isEmpty then
    ((sortFilesDesc db.files).filter (fun f =>
        f.userId == uid && db.users.contains f.userId)).map (fun f => f.id)
  else matchingFiles db uid sel

/-- The per-file tag query used by `get_files` / `get_file` / `assign_tags`:
`FROM file_tags ft JOIN tags t ON ft.tag_id = t.id JOIN dimensions d ...
WHERE ft.file_id = %s`.  It does not filter on `t.is_active`.  (The
`ORDER BY d.display_order` of the listing variant is dropped here; every
property proved below is order-insensitive.)  Result: the tag ids. -/
def fileTagsOf (db : DB) (fid : Int) : List Int :=
  (db.fileTags.filter (fun ft => ft.fileId == fid)).filterMap (fun ft =>
    match db.tags.find? (fun t => t.id == ft.tagId) with
    | some t =>
      if db.dimensions.any (fun d => d.id == t.dimensionId) then some t.id else none
    | none => none)

/-- Python `str.split(',')`: split at every comma, keeping empty pieces
(`''.split(',') = ['']`, `'a,,b'.split(',') = ['a', '', 'b']`). -/
def splitComma : List Char → List (List Char)
  | [] => [[]]
  | c :: cs =>
    match splitComma cs with
    | [] => [[c]]
    | t :: ts => if c = ',' then [] :: t :: ts else (c :: t) :: ts

/-- The whitespace characters `str.strip()` removes (ASCII subset). -/
def isPySpace (c : Char) : Bool :=
  c = ' ' || c = '\t' || c = '\n' || c = '\r' || c = '\x0b' || c = '\x0c'

/-- Python `str.strip()`: drop leading and trailing whitespace. -/
def stripChars (s : List Char) : List Char :=
  ((s.dropWhile isPySpace).reverse.dropWhile isPySpace).reverse

/-- Value of a decimal digit character, if it is one. -/
def digitVal (c : Char) : Option Nat :=
  if '0' ≤ c ∧ c ≤ '9' then some (c.toNat - '0'.toNat) else none

/-- Accumulating decimal parse; fails at the first non-digit. -/
def parseDigitsAux : List Char → Nat → Option Nat
  | [], acc => some acc
  | c :: cs, acc =>
    match digitVal c with
    | some d => parseDigitsAux cs (acc * 10 + d)
    | none => none

/-- A non-empty all-digit run, as a number. -/
def parseDigits : List Char → Option Nat
  | [] => none
  | c :: cs => parseDigitsAux (c :: cs) 0

/-- Python `int(tok)` on an already-stripped token, modelled for ASCII:
an optional sign followed by a non-empty run of decimal digits; `none`
models the `ValueError` raised otherwise.  (Underscore separators and
non-ASCII digits accepted by CPython are not modelled; no claim depends
on them.) -/
def pyIntOfChars : List Char → Option Int
  | '-' :: rest => (parseDigits rest).map (fun n => -(n : Int))
  | '+' :: rest => (parseDigits rest).map (fun n => (n : Int))
  | cs => (parseDigits cs).map (fun n => (n : Int))

/-- Sequential `int(...)` over the kept tokens; the first failure aborts the
whole comprehension (Python raises at the first bad token). -/
def mapInts : List (List Char) → Option (List Int)
  | [] => some []
  | t :: ts =>
    match pyIntOfChars t, mapInts ts with
    | some v, some vs => some (v :: vs)
    | _, _ => none

/-- `[int(t.strip()) for t in tag_ids_str.split(',') if t.strip()]`, guarded
by `if tag_ids_str:` (a falsy, i.e. empty, string yields no selection).
Tokens that strip to the empty string are dropped; a non-numeric token makes
the whole parse fail (`none` = `ValueError`). -/
def parseTagIds (s : String) : Option (List Int) :=
  if s.data = [] then some []
  else mapInts (((splitComma s.data).map stripChars).filter (fun t => t != []))

/-- Message of the 500 response produced when `int()` raises. -/
def valueErrorMsg : String := "invalid literal for int() with base 10"

/-- `GET /api/files`: parse the `tags` parameter, run the matching query,
apply `LIMIT %s OFFSET %s`, and annotate each file with its full tag list.
A `ValueError` while parsing is caught by the generic handler and surfaces
as a 500 error response (`Except.error`). -/
def getFiles (db : DB) (uid : Int) (tagsParam : String) (limit offset : Nat) :
    Except String (List (Int × List Int)) :=
  match parseTagIds tagsParam with
  | none => .error valueErrorMsg
  | some sel =>
    .ok ((((matchSet db uid sel).drop offset).take limit).map
      (fun fid => (fid, fileTagsOf db fid)))

/-- The tag's dimension row exists (the `JOIN dimensions d` condition). -/
def dimensionExists (db : DB) (d : Int) : Bool :=
  db.dimensions.any (fun dim => dim.id == d)

/-- `GET /api/tags` (`get_tags`): active tags joined with their dimension,
under the three optional filters (`dimension_id`, `parent_id` — where
`some none` models the `'null'`/`'none'` token —, `level`), ordered by
`display_order` (the `name_en` tiebreak is an order-only detail omitted
here; the properties proved are order-insensitive). -/
def getTagsResult (db : DB) (dimFilter : Option Int)
    (parentFilter : Option (Option Int)) (levelFilter : Option Int) : List Tag :=
  sortBy (fun t u => decide (t.displayOrder ≤ u.displayOrder))
    (db.tags.filter (fun t =>
      t.isActive && dimensionExists db t.dimensionId
      && (match dimFilter with | some d => t.dimensionId == d | none => true)
      && (match parentFilter with | some p => t.parentId == p | none => true)
      && (match levelFilter with | some l => t.level == l | none => true)))

/-- Flattened tag contents of `build_tree` in `get_tags_tree`: every tag of
the input whose `parent_id` equals `parent` is emitted, followed by its
(recursively built) children.  `fuel` bounds the recursion depth — the
Python recursion has no cycle guard, so any bound-respecting run of it emits
exactly such a flattening. -/
def buildTreeTags (tags : List Tag) (parent : Option Int) : Nat → List Tag
  | 0 => []
  | fuel + 1 =>
    (tags.filter (fun t => t.parentId == parent)).flatMap
      (fun t => t :: buildTreeTags tags (some t.id) fuel)

/-- The tag rows `get_tags_tree` feeds the tree builder for one dimension:
`SELECT ... FROM tags WHERE is_active = TRUE` restricted to the dimension. -/
def treeInputTags (db : DB) (dimId : Int) : List Tag :=
  (db.tags.filter (fun t => t.isActive)).filter (fun t => t.dimensionId == dimId)

/-- `SELECT COUNT(DISTINCT f.id) ... WHERE f.user_id = %s AND ft.tag_id = %s`:
the empty-selection branch of the per-tag count in `cgrid_navigate`. -/
def countDistinctFilesWithTag (db : DB) (uid t : Int) : Nat :=
  ((db.files.filter (fun f => f.userId == uid && hasTag db f.id t)).map
    (fun f => f.id)).dedup.length

/-- `SELECT COUNT(*) FROM (SELECT f.id ... GROUP BY f.id HAVING
COUNT(DISTINCT ft.tag_id) = %s) as matched`: the number of (distinct) file
ids of user `uid` whose distinct matched-tag count reaches `sel.length`.
Used by the not-selected forward count and by the aggregate total. -/
def matchSetSize (db : DB) (uid : Int) (sel : List Int) : Nat :=
  ((db.files.filter (fun f =>
      f.userId == uid && matchedCount db f.id sel == sel.length)).map
    (fun f => f.id)).dedup.length

/-- The per-tag `file_count` computed by `cgrid_navigate` for candidate `t`
under selection `sel`.  The already-selected branch runs a `GROUP BY f.id`
query selecting `COUNT(DISTINCT f.id)` and reads it with `fetch_one`: every
group row holds the value 1, and an empty result yields 0 via the
`count_result['cnt'] if count_result else 0` guard — so that branch reports
1 when at least one file matches the selection and 0 otherwise. -/
def navCount (db : DB) (uid : Int) (sel : List Int) (t : Int) : Nat :=
  if sel.isEmpty then countDistinctFilesWithTag db uid t
  else if sel.contains t then
    if 0 < matchSetSize db uid sel then 1 else 0
  else matchSetSize db uid (sel ++ [t])

/-- The `total_matching_files` aggregate of `cgrid_navigate`: the wrapped
subquery count for a non-empty selection, `SELECT COUNT(*) FROM files WHERE
user_id = %s` otherwise. -/
def navTotal (db : DB) (uid : Int) (sel : List Int) : Nat :=
  if sel.isEmpty then (db.files.filter (fun f => f.userId == uid)).length
  else matchSetSize db uid sel

/-- One entry of a dimension's tag list in the navigation response. -/
structure NavTag where
  tag : Tag
  fileCount : Nat
  isSelected : Bool
deriving DecidableEq, Repr

/-- The tags of one dimension as fetched by `cgrid_navigate`:
`WHERE dimension_id = %s AND is_active = TRUE ORDER BY level, display_order`. -/
def navDimTags (db : DB) (dimId : Int) : List Tag :=
  sortBy (fun t u => decide (t.level < u.level) ||
      (t.level == u.level && decide (t.displayOrder ≤ u.displayOrder)))
    (db.tags.filter (fun t => t.dimensionId == dimId && t.isActive))

/-- One dimension's block of the navigation response. -/
def navigateDim (db : DB) (uid : Int) (sel : List Int) (d : Dimension) :
    List NavTag :=
  (navDimTags db d.id).map (fun t =>
    ⟨t, navCount db uid sel t.id, sel.contains t.id⟩)

/-- `GET /api/cgrid/navigate`: parse the selection, then per dimension the
annotated tag list, plus the aggregate total.  A `ValueError` while parsing
surfaces as a 500 error response. -/
def cgridNavigate (db : DB) (uid : Int) (tagsParam : String) :
    Except String (List (Dimension × List NavTag) × Nat) :=
  match parseTagIds tagsParam with
  | none => .error valueErrorMsg
  | some sel =>
    .ok (((sortBy (fun a b => decide (a.displayOrder ≤ b.displayOrder))
        db.dimensions).map
      (fun d => (d, navigateDim db uid sel d)), navTotal db uid sel))

/-- The tag id has a row in `tags` (the foreign-key target of
`file_tags.tag_id`; inserting a missing one raises `IntegrityError`). -/
def tagExists (db : DB) (t : Int) : Bool :=
  db.tags.any (fun tg => tg.id == t)

/-- One `INSERT INTO file_tags ... ON DUPLICATE KEY UPDATE assigned_at =
CURRENT_TIMESTAMP`, wrapped in the `except IntegrityError` warn-and-skip
handler.  Returns the updated association rows and the warned tag id, if
any.  On a duplicate `(file_id, tag_id)` key only `assigned_at` changes. -/
def insertFileTag (db : DB) (fts : List FileTag) (fid t uid : Int) (now : Nat) :
    List FileTag × Option Int :=
  if tagExists db t then
    if hasPair fts fid t then
      (fts.map (fun ft =>
        if ft.fileId == fid && ft.tagId == t then { ft with assignedAt := now }
        else ft), none)
    else (fts ++ [⟨fid, t, uid, now⟩], none)
  else (fts, some t)

/-- The `for tag_id in tag_ids:` loop of `assign_tags`: sequential inserts,
collecting the warned (skipped) tag ids. -/
def insertAll (db : DB) (fts : List FileTag) (fid : Int) (tagIds : List Int)
    (uid : Int) (now : Nat) : List FileTag × List Int :=
  match tagIds with
  | [] => (fts, [])
  | t :: rest =>
    let r := insertFileTag db fts fid t uid now
    let s := insertAll db r.1 fid rest uid now
    (s.1, (match r.2 with | some w => [w] | none => []) ++ s.2)

/-- `POST /api/files/<id>/tags` (`assign_tags`): 404 if the file does not
exist; otherwise optionally clear the file's associations (`replace` mode),
run the insert loop, and return the new state, the file's complete resulting
tag list (the same join as `fileTagsOf`, evaluated after the writes), and
the warned tag ids. -/
def assignTags (db : DB) (fid : Int) (tagIds : List Int) (uid : Int)
    (replaceMode : Bool) (now : Nat) : Except String (DB × List Int × List Int) :=
  if db.files.any (fun f => f.id == fid) then
    let base := if replaceMode then db.fileTags.filter (fun ft => ft.fileId != fid)
                else db.fileTags
    let r := insertAll db base fid tagIds uid now
    let db' := { db with fileTags := r.1 }
    .ok (db', fileTagsOf db' fid, r.2)
  else .error "File not found"

/-- Spec-side match count, written from the spec's words: the number of
distinct files owned by `uid` "having associations to every tag id in S".
Compared against the query-side `matchSetSize` in the theorems below. -/
def specMatchCount (db : DB) (uid : Int) (sel : List Int) : Nat :=
  ((db.files.filter (fun f =>
      f.userId == uid && sel.all (fun t => hasTag db f.id t))).map
    (fun f => f.id)).dedup.length

/-! ## Basic facts about the matching engine -/

theorem matchedCount_le_dedup (db : DB) (fid : Int) (sel : List Int) :
    matchedCount db fid sel ≤ sel.dedup.length :=
  List.length_filter_le _ _

theorem matchedCount_eq_length_iff {sel : List Int} (hnd : sel.Nodup)
    (db : DB) (fid : Int) :
    matchedCount db fid sel = sel.length ↔ ∀ t ∈ sel, hasTag db fid t = true := by
  unfold matchedCount
  rw [List.dedup_eq_self.mpr hnd]
  exact List.filter_length_eq_length

theorem matchedCount_full {db : DB} {fid : Int} {sel : List Int}
    (h : matchedCount db fid sel = sel.length) :
    sel.Nodup ∧ ∀ t ∈ sel, hasTag db fid t = true := by
  have hle : sel.length ≤ sel.dedup.length := h ▸ matchedCount_le_dedup db fid sel
  have hge : sel.dedup.length ≤ sel.length := (List.dedup_sublist sel).length_le
  have heq : sel.dedup = sel :=
    (List.dedup_sublist sel).eq_of_length (le_antisymm hge hle)
  have hnd : sel.Nodup := heq ▸ List.nodup_dedup sel
  exact ⟨hnd, (matchedCount_eq_length_iff hnd db fid).mp h⟩

theorem dedup_length_le_of_subset {l₁ l₂ : List Int} (h : l₁ ⊆ l₂) :
    l₁.dedup.length ≤ l₂.dedup.length := by
  rw [← List.card_toFinset, ← List.card_toFinset]
  refine Finset.card_le_card ?_
  intro a ha
  simp only [List.mem_toFinset] at *
  exact h ha

theorem length_filter_and_le (l : List FileRec) (p q : FileRec → Bool) :
    (l.filter (fun f => p f && q f)).length ≤ (l.filter p).length := by
  induction l with
  | nil => simp
  | cons x xs ih =>
    by_cases hp : p x <;> by_cases hq : q x <;>
      simp [List.filter_cons, hp, hq] <;> omega

theorem mem_insertBy {α : Type} {le : α → α → Bool} {a x : α} {l : List α} :
    x ∈ insertBy le a l ↔ x = a ∨ x ∈ l := by
  induction l with
  | nil => simp [insertBy]
  | cons b bs ih =>
    by_cases h : le a b = true
    · simp [insertBy, h, List.mem_cons]
    · simp only [insertBy, if_neg h, List.mem_cons, ih]
      tauto

theorem mem_sortBy {α : Type} {le : α → α → Bool} {x : α} {l : List α} :
    x ∈ sortBy le l ↔ x ∈ l := by
  induction l with
  | nil => exact Iff.rfl
  | cons a as ih => simp [sortBy, mem_insertBy, ih, List.mem_cons]

theorem mem_filterSortMap {files : List FileRec} {p : FileRec → Bool} {fid : Int} :
    fid ∈ ((sortFilesDesc files).filter p).map (fun f => f.id) ↔
      ∃ f, (f ∈ files ∧ p f = true) ∧ f.id = fid := by
  simp [sortFilesDesc, List.mem_map, List.mem_filter, mem_sortBy]

theorem matchSetSize_eq_spec {sel : List Int} (hnd : sel.Nodup)
    (db : DB) (uid : Int) :
    matchSetSize db uid sel = specMatchCount db uid sel := by
  unfold matchSetSize specMatchCount
  have hpt : ∀ f : FileRec,
      (matchedCount db f.id sel == sel.length) =
        sel.all (fun t => hasTag db f.id t) := by
    intro f
    rw [Bool.eq_iff_iff]
    simp [List.all_eq_true, matchedCount_eq_length_iff hnd]
  have : db.files.filter (fun f =>
        f.userId == uid && (matchedCount db f.id sel == sel.length)) =
      db.files.filter (fun f =>
        f.userId == uid && sel.all (fun t => hasTag db f.id t)) :=
    List.filter_congr (fun f _ => by rw [hpt f])
  rw [this]

/-! ## Claim theorems -/

/-- C1: for every user `U` (a row of `users`) and every non-empty duplicate-free
selection `S` of `k` tag ids, a file owned by `U` is in the list produced by
the listing query iff the count of distinct tag ids of `S` it is associated
with equals `k`; equivalently, iff it is associated with every tag id of `S`
(so a strict superset of `S` matches and a proper subset does not). -/
theorem C1_and_exactness (db : DB) (uid : Int) (sel : List Int) (f : FileRec)
    (hu : uid ∈ db.users) (_hne : sel ≠ []) (hnd : sel.Nodup)
    (hpk : (db.files.map FileRec.id).Nodup)
    (hf : f ∈ db.files) (hown : f.userId = uid) :
    (f.id ∈ matchingFiles db uid sel ↔ matchedCount db f.id sel = sel.length) ∧
    (matchedCount db f.id sel = sel.length ↔
      sel.all (fun t => hasTag db f.id t) = true) := by
  constructor
  · unfold matchingFiles
    rw [mem_filterSortMap]
    constructor
    · rintro ⟨g, ⟨hg, hp⟩, hid⟩
      have hfg : g = f := List.inj_on_of_nodup_map hpk hg hf hid
      subst hfg
      simp only [Bool.and_eq_true, beq_iff_eq] at hp
      exact hp.2
    · intro hc
      refine ⟨f, ⟨hf, ?_⟩, rfl⟩
      simp only [Bool.and_eq_true, beq_iff_eq]
      refine ⟨⟨hown, ?_⟩, hc⟩
      rw [hown]
      simpa using hu
  · exact (matchedCount_eq_length_iff hnd db f.id).trans List.all_eq_true.symm

/-- C3: for a candidate tag `T ∉ S` (with `S` duplicate-free), the forward
count reported by `cgrid_navigate` equals the number of distinct files owned
by `U` associated with every tag of `S ∪ {T}`; for `S = []` this is the
count of distinct files of `U` associated with `T` alone. -/
theorem C3_forward_count_not_selected (db : DB) (uid : Int) (sel : List Int)
    (t : Int) (hnd : sel.Nodup) (hns : t ∉ sel) :
    navCount db uid sel t = specMatchCount db uid (sel ++ [t]) := by
  have hnd' : (sel ++ [t]).Nodup := by
    rw [List.nodup_append]
    refine ⟨hnd, List.nodup_singleton t, ?_⟩
    intro a ha hb
    simp only [List.mem_singleton] at hb
    subst hb
    exact hns ha
  unfold navCount
  by_cases he : sel.isEmpty = true
  · have hsel : sel = [] := by simpa [List.isEmpty_iff] using he
    subst hsel
    rw [if_pos he, List.nil_append]
    unfold countDistinctFilesWithTag specMatchCount
    have : db.files.filter (fun f => f.userId == uid && hasTag db f.id t) =
        db.files.filter (fun f =>
          f.userId == uid && [t].all (fun u => hasTag db f.id u)) :=
      List.filter_congr (fun f _ => by simp)
    rw [this]
  · rw [if_neg he]
    have h2 : sel.contains t = false := by
      rw [← Bool.not_eq_true]
      simpa using hns
    rw [h2, if_neg Bool.false_ne_true]
    exact matchSetSize_eq_spec hnd' db uid

/-- C5: enlarging the selection never enlarges the match set — every file id
matched under the larger (duplicate-free) selection `sel₂` is matched under
the smaller `sel₁ ⊆ sel₂` (the strict-subset case of the claim follows). -/
theorem C5_monotone (db : DB) (uid : Int) (sel1 sel2 : List Int) (fid : Int)
    (h1 : sel1.Nodup) (h2 : sel2.Nodup) (hsub : sel1 ⊆ sel2)
    (hmem : fid ∈ matchSet db uid sel2) : fid ∈ matchSet db uid sel1 := by
  unfold matchSet at *
  have key : ∀ f : FileRec,
      (f.userId == uid && db.users.contains f.userId &&
        (matchedCount db f.id sel2 == sel2.length)) = true →
      (f.userId == uid) = true ∧ db.users.contains f.userId = true ∧
      (matchedCount db f.id sel1 == sel1.length) = true := by
    intro f hp
    simp only [Bool.and_eq_true] at hp
    have hall2 := (matchedCount_eq_length_iff h2 db f.id).mp (beq_iff_eq.mp hp.2)
    have hall1 := (matchedCount_eq_length_iff h1 db f.id).mpr
      (fun u hu => hall2 u (hsub hu))
    exact ⟨hp.1.1, hp.1.2, beq_iff_eq.mpr hall1⟩
  by_cases he2 : sel2.isEmpty
  · -- sel2 = [] forces sel1 = [] (it has no members to draw from)
    have : sel2 = [] := by simpa [List.isEmpty_iff] using he2
    subst this
    have : sel1 = [] := List.eq_nil_iff_forall_not_mem.mpr
      (fun a ha => by simpa using hsub ha)
    subst this
    simpa using hmem
  · rw [if_neg (by simp [he2])] at hmem
    by_cases he1 : sel1.isEmpty
    · rw [if_pos he1]
      unfold matchingFiles at hmem
      rw [mem_filterSortMap] at hmem ⊢
      obtain ⟨f, ⟨hf, hp⟩, hid⟩ := hmem
      have k := key f hp
      refine ⟨f, ⟨hf, ?_⟩, hid⟩
      rw [Bool.and_eq_true]
      exact ⟨k.1, k.2.1⟩
    · rw [if_neg he1]
      unfold matchingFiles at hmem ⊢
      rw [mem_filterSortMap] at hmem ⊢
      obtain ⟨f, ⟨hf, hp⟩, hid⟩ := hmem
      have k := key f hp
      refine ⟨f, ⟨hf, ?_⟩, hid⟩
      simp only [Bool.and_eq_true]
      exact ⟨⟨k.1, k.2.1⟩, k.2.2⟩

/-- C4: for any candidate tag `T ∉ S`, the forward count `cgrid_navigate`
reports for `T` is at most the aggregate `total_matching_files` it reports
for the current selection `S` (any parsed token list, duplicates allowed). -/
theorem C4_forward_le_total (db : DB) (uid : Int) (sel : List Int) (t : Int)
    (hns : t ∉ sel) :
    navCount db uid sel t ≤ navTotal db uid sel := by
  unfold navCount navTotal
  by_cases he : sel.isEmpty = true
  · rw [if_pos he, if_pos he]
    unfold countDistinctFilesWithTag
    calc ((db.files.filter (fun f =>
            f.userId == uid && hasTag db f.id t)).map (fun f => f.id)).dedup.length
        ≤ ((db.files.filter (fun f =>
            f.userId == uid && hasTag db f.id t)).map (fun f => f.id)).length :=
          (List.dedup_sublist _).length_le
      _ = (db.files.filter (fun f =>
            f.userId == uid && hasTag db f.id t)).length := List.length_map _ _
      _ ≤ (db.files.filter (fun f => f.userId == uid)).length :=
          length_filter_and_le _ _ _
  · rw [if_neg he, if_neg he]
    have h2 : sel.contains t = false := by
      rw [← Bool.not_eq_true]
      simpa using hns
    rw [h2, if_neg Bool.false_ne_true]
    unfold matchSetSize
    apply dedup_length_le_of_subset
    intro a ha
    simp only [List.mem_map, List.mem_filter, Bool.and_eq_true, beq_iff_eq] at ha ⊢
    obtain ⟨f, ⟨hf, hu, hc⟩, hid⟩ := ha
    have hfull := matchedCount_full hc
    have hndsel : sel.Nodup := hfull.1.sublist (List.sublist_append_left sel [t])
    have hall : ∀ u ∈ sel, hasTag db f.id u = true :=
      fun u hu' => hfull.2 u (List.mem_append_left [t] hu')
    exact ⟨f, ⟨hf, hu, (matchedCount_eq_length_iff hndsel db f.id).mpr hall⟩, hid⟩

/-- C10: a `tags` parameter that lists the same tag id more than once makes
the listing return an empty file list, and the navigation aggregate total
zero — the `HAVING` threshold is the token-list length, which the count of
distinct matched tag ids cannot reach. -/
theorem C10_duplicate_selection_empty (db : DB) (uid : Int) (s : String)
    (sel : List Int) (limit offset : Nat)
    (hp : parseTagIds s = some sel) (hd : ¬ sel.Nodup) :
    getFiles db uid s limit offset = .ok [] ∧ navTotal db uid sel = 0 := by
  have hne : sel ≠ [] := by
    rintro rfl
    exact hd List.nodup_nil
  have hie : ¬ sel.isEmpty = true := by
    simpa [List.isEmpty_iff] using hne
  have hfe : ∀ f : FileRec, (matchedCount db f.id sel == sel.length) = false := by
    intro f
    rw [Bool.eq_false_iff]
    intro hc
    exact hd (matchedCount_full (beq_iff_eq.mp hc)).1
  constructor
  · unfold getFiles
    rw [hp]
    have hms : matchSet db uid sel = [] := by
      unfold matchSet matchingFiles
      rw [if_neg hie, List.map_eq_nil_iff, List.filter_eq_nil_iff]
      intro f _ hcontra
      simp only [Bool.and_eq_true] at hcontra
      have hc := hcontra.2
      rw [hfe f] at hc
      cases hc
    simp [hms]
  · unfold navTotal matchSetSize
    rw [if_neg hie]
    have : db.files.filter (fun f =>
        f.userId == uid && (matchedCount db f.id sel == sel.length)) = [] := by
      rw [List.filter_eq_nil_iff]
      intro f _ hcontra
      simp only [Bool.and_eq_true] at hcontra
      have hc := hcontra.2
      rw [hfe f] at hc
      cases hc
    rw [this]
    simp

/-! ## Concrete database states (used as failing inputs and witnesses) -/

/-- The §8 scenario of the spec: tags Family=1, Work=2, 2023=3; files
A=100 (tags 1,3), B=101 (tags 1,2,3), C=102 (tag 2), all owned by user 1. -/
def exDb : DB :=
  { dimensions := [⟨1, "WHO", 1⟩, ⟨2, "WHEN", 2⟩],
    tags := [⟨1, 1, "Family", none, 1, 1, true⟩, ⟨2, 1, "Work", none, 1, 2, true⟩,
             ⟨3, 2, "Y2023", none, 1, 1, true⟩],
    users := [1],
    files := [⟨100, 1, 5⟩, ⟨101, 1, 6⟩, ⟨102, 1, 7⟩],
    fileTags := [⟨100, 1, 1, 0⟩, ⟨100, 3, 1, 0⟩,
                 ⟨101, 1, 1, 0⟩, ⟨101, 2, 1, 0⟩, ⟨101, 3, 1, 0⟩,
                 ⟨102, 2, 1, 0⟩] }

/-- Two files of user 1, both tagged with tag 1. -/
def dbTwoMatches : DB :=
  { dimensions := [⟨1, "WHO", 1⟩],
    tags := [⟨1, 1, "Family", none, 1, 1, true⟩],
    users := [1],
    files := [⟨100, 1, 5⟩, ⟨101, 1, 6⟩],
    fileTags := [⟨100, 1, 1, 0⟩, ⟨101, 1, 1, 0⟩] }

/-- User 1 owns file 10, whose only tag (id 5) is soft-deleted
(`is_active = FALSE`). -/
def dbInactive : DB :=
  { dimensions := [⟨1, "WHO", 1⟩],
    tags := [⟨5, 1, "Legacy", none, 1, 1, false⟩],
    users := [1],
    files := [⟨10, 1, 1⟩],
    fileTags := [⟨10, 5, 1, 0⟩] }

/-- C2: evaluation at the failing input.  With selection `S = [1]`, candidate
`T = 1 ∈ S`, and two files of user 1 both tagged 1, `cgrid_navigate` reports
`file_count = 1` for `T` (its `fetch_one` reads the first row of a
`GROUP BY f.id` query, whose every row carries `COUNT(DISTINCT f.id) = 1`),
while the number of files matching `S` as a whole — reported as
`total_matching_files` in the very same response — is 2. -/
theorem C2_selected_tag_count_stuck_at_one :
    navCount dbTwoMatches 1 [1] 1 = 1 ∧
    specMatchCount dbTwoMatches 1 [1] = 2 ∧
    navTotal dbTwoMatches 1 [1] = 2 := by decide

/-- The `success` flag of a modelled endpoint response. -/
def respOk {α : Type} : Except String α → Bool
  | Except.ok _ => true
  | Except.error _ => false

/-- C8 counterexample: a non-numeric selection token is not dropped — it
makes both the listing and the navigation operation fail with an error
response (the `ValueError` of `int()` reaches the generic handler). -/
theorem C8_counterexample_malformed_token_fatal :
    getFiles dbInactive 1 "1,abc" 100 0 = Except.error valueErrorMsg ∧
    cgridNavigate dbInactive 1 "1,abc" = Except.error valueErrorMsg := by
  constructor <;> rfl

theorem mapInts_isSome {toks : List (List Char)}
    (h : ∀ tok ∈ toks, (pyIntOfChars tok).isSome = true) :
    ∃ l, mapInts toks = some l := by
  induction toks with
  | nil => exact ⟨[], rfl⟩
  | cons t ts ih =>
    obtain ⟨l, hl⟩ := ih (fun u hu => h u (List.mem_cons_of_mem t hu))
    have ht := h t (List.mem_cons_self t ts)
    cases hpt : pyIntOfChars t with
    | none => rw [hpt] at ht; cases ht
    | some v => exact ⟨v :: l, by simp [mapInts, hpt, hl]⟩

/-- C8 amended: only tokens that strip to the empty string are dropped
without failing; when every token of the `tags` parameter strips to empty
or to an integer literal, both the listing and the navigation operation
succeed.  (A non-numeric token instead fails the whole request, per the
counterexample.) -/
theorem C8_amended_blank_tokens_dropped (db : DB) (uid : Int)
    (limit offset : Nat) (s : String)
    (h : ∀ tok ∈ (splitComma s.data).map stripChars,
      tok = [] ∨ (pyIntOfChars tok).isSome = true) :
    respOk (getFiles db uid s limit offset) = true ∧
    respOk (cgridNavigate db uid s) = true := by
  have hp : ∃ l, parseTagIds s = some l := by
    unfold parseTagIds
    by_cases hs : s.data = []
    · rw [if_pos hs]
      exact ⟨[], rfl⟩
    · rw [if_neg hs]
      have h' : ∀ tok ∈ ((splitComma s.data).map stripChars).filter
          (fun t => t != []), (pyIntOfChars tok).isSome = true := by
        intro tok htok
        have hmem := List.mem_of_mem_filter htok
        have hne : tok ≠ [] := by
          have := List.of_mem_filter htok
          simpa using this
        rcases h tok hmem with h0 | h1
        · exact absurd h0 hne
        · exact h1
      exact mapInts_isSome h'
  obtain ⟨l, hl⟩ := hp
  constructor
  · simp [getFiles, hl, respOk]
  · simp [cgridNavigate, hl, respOk]

/-- Tags emitted by the tree builder all come from its input list. -/
theorem mem_buildTreeTags {tags : List Tag} {parent : Option Int}
    {fuel : Nat} {t : Tag} (h : t ∈ buildTreeTags tags parent fuel) :
    t ∈ tags := by
  induction fuel generalizing parent with
  | zero => simp [buildTreeTags] at h
  | succ n ih =>
    simp only [buildTreeTags, List.mem_flatMap] at h
    obtain ⟨u, hu, hcase⟩ := h
    rcases List.mem_cons.mp hcase with rfl | hmem
    · exact (List.mem_filter.mp hu).1
    · exact ih hmem

/-- C9 counterexample: the per-file tag annotation of the listing response
contains tag 5 although tag 5 is soft-deleted — the per-file tag queries do
not filter on `is_active`. -/
theorem C9_counterexample_inactive_tag_in_listing :
    getFiles dbInactive 1 "" 100 0 = Except.ok [(10, [5])] ∧
    (dbInactive.tags.find? (fun t => t.id == 5)).map Tag.isActive =
      some false := by
  constructor <;> rfl

/-- C9 amended: inactive tags are excluded from the tag listing
(`get_tags`, under any combination of its filters), from the tag tree
(`get_tags_tree`, any dimension/parent/recursion depth), and from the
per-dimension tag lists of `cgrid_navigate` — but not from the per-file
tag annotations (see the counterexample). -/
theorem C9_amended_inactive_excluded_from_catalogs (db : DB)
    (dimFilter : Option Int) (parentFilter : Option (Option Int))
    (levelFilter : Option Int) (dimId : Int) (parent : Option Int)
    (fuel : Nat) :
    (getTagsResult db dimFilter parentFilter levelFilter).all
      (fun t => t.isActive) = true ∧
    (buildTreeTags (treeInputTags db dimId) parent fuel).all
      (fun t => t.isActive) = true ∧
    (navDimTags db dimId).all (fun t => t.isActive) = true := by
  refine ⟨?_, ?_, ?_⟩
  · rw [List.all_eq_true]
    intro t ht
    unfold getTagsResult at ht
    rw [mem_sortBy] at ht
    have hp := (List.mem_filter.mp ht).2
    simp only [Bool.and_eq_true] at hp
    exact hp.1.1.1.1
  · rw [List.all_eq_true]
    intro t ht
    have hin := mem_buildTreeTags ht
    unfold treeInputTags at hin
    exact (List.mem_filter.mp (List.mem_of_mem_filter hin)).2
  · rw [List.all_eq_true]
    intro t ht
    unfold navDimTags at ht
    rw [mem_sortBy] at ht
    have hp := (List.mem_filter.mp ht).2
    simp only [Bool.and_eq_true] at hp
    exact hp.2

/-! ## The write path (`assign_tags`) -/

/-- The tag row referenced by `t` exists and its dimension row exists: the
join conditions of the per-file tag query. -/
def tagJoinExists (db : DB) (t : Int) : Bool :=
  match db.tags.find? (fun tg => tg.id == t) with
  | some tg => db.dimensions.any (fun d => d.id == tg.dimensionId)
  | none => false

/-- The database state after an additive (`replace = False`) `assign_tags`
batch on file `fid`. -/
def afterAssign (db : DB) (fid : Int) (tagIds : List Int) (uid : Int)
    (now : Nat) : DB :=
  { db with fileTags := (insertAll db db.fileTags fid tagIds uid now).1 }

theorem hasPair_map_update (fts : List FileTag) (fid t : Int) (now : Nat)
    (fid' t' : Int) :
    hasPair (fts.map (fun ft =>
      if ft.fileId == fid && ft.tagId == t then { ft with assignedAt := now }
      else ft)) fid' t' = hasPair fts fid' t' := by
  induction fts with
  | nil => rfl
  | cons ft rest ih =>
    unfold hasPair at *
    simp only [List.map_cons, List.any_cons, ih]
    by_cases hm : (ft.fileId == fid && ft.tagId == t) = true <;> simp [hm]

theorem hasPair_insertFileTag_iff (db : DB) (fts : List FileTag)
    (fid t uid : Int) (now : Nat) (fid' t' : Int) :
    hasPair (insertFileTag db fts fid t uid now).1 fid' t' = true ↔
      (hasPair fts fid' t' = true ∨
        (fid' = fid ∧ t' = t ∧ tagExists db t = true)) := by
  unfold insertFileTag
  by_cases hex : tagExists db t = true
  · rw [if_pos hex]
    by_cases hal : hasPair fts fid t = true
    · rw [if_pos hal]
      dsimp only
      rw [hasPair_map_update]
      constructor
      · exact Or.inl
      · rintro (h | ⟨rfl, rfl, -⟩)
        · exact h
        · exact hal
    · rw [if_neg hal]
      dsimp only
      unfold hasPair
      rw [List.any_append]
      simp only [List.any_cons, List.any_nil, Bool.or_false, Bool.or_eq_true]
      constructor
      · rintro (h | h)
        · exact Or.inl h
        · simp only [Bool.and_eq_true, beq_iff_eq] at h
          exact Or.inr ⟨h.1.symm, h.2.symm, hex⟩
      · rintro (h | ⟨rfl, rfl, -⟩)
        · exact Or.inl h
        · exact Or.inr (by simp)
  · rw [if_neg hex]
    dsimp only
    constructor
    · exact Or.inl
    · rintro (h | ⟨-, -, hex'⟩)
      · exact h
      · exact absurd hex' hex

theorem hasPair_insertAll (db : DB) (fts : List FileTag) (fid : Int)
    (tagIds : List Int) (uid : Int) (now : Nat) (fid' t' : Int) :
    hasPair (insertAll db fts fid tagIds uid now).1 fid' t' = true ↔
      (hasPair fts fid' t' = true ∨
        (fid' = fid ∧ t' ∈ tagIds ∧ tagExists db t' = true)) := by
  induction tagIds generalizing fts with
  | nil => simp [insertAll]
  | cons t ts ih =>
    simp only [insertAll]
    rw [ih, hasPair_insertFileTag_iff]
    constructor
    · rintro ((h | ⟨rfl, rfl, hex⟩) | ⟨rfl, hmem, hex⟩)
      · exact Or.inl h
      · exact Or.inr ⟨rfl, List.mem_cons_self _ _, hex⟩
      · exact Or.inr ⟨rfl, List.mem_cons_of_mem _ hmem, hex⟩
    · rintro (h | ⟨rfl, hmem, hex⟩)
      · exact Or.inl (Or.inl h)
      · rcases List.mem_cons.mp hmem with rfl | hmem'
        · exact Or.inl (Or.inr ⟨rfl, rfl, hex⟩)
        · exact Or.inr ⟨rfl, hmem', hex⟩

theorem insertAll_warnings (db : DB) (fts : List FileTag) (fid : Int)
    (tagIds : List Int) (uid : Int) (now : Nat) :
    (insertAll db fts fid tagIds uid now).2 =
      tagIds.filter (fun t => !tagExists db t) := by
  induction tagIds generalizing fts with
  | nil => rfl
  | cons t ts ih =>
    simp only [insertAll]
    rw [ih]
    unfold insertFileTag
    by_cases hex : tagExists db t = true <;>
      by_cases hal : hasPair fts fid t = true <;>
      simp [hex, hal, List.filter_cons]

theorem mem_fileTagsOf {db : DB} {fid t : Int} :
    t ∈ fileTagsOf db fid ↔
      (hasTag db fid t = true ∧ tagJoinExists db t = true) := by
  unfold fileTagsOf tagJoinExists
  rw [List.mem_filterMap]
  constructor
  · rintro ⟨ft, hft, hemit⟩
    rw [List.mem_filter] at hft
    cases hfind : db.tags.find? (fun tg => tg.id == ft.tagId) with
    | none => rw [hfind] at hemit; cases hemit
    | some tg =>
      rw [hfind] at hemit
      dsimp only at hemit
      by_cases hdim : db.dimensions.any (fun d => d.id == tg.dimensionId) = true
      · rw [if_pos hdim] at hemit
        have hid : tg.id = t := Option.some.inj hemit
        have hpred : tg.id = ft.tagId := by
          have h := List.find?_some hfind
          simpa using h
        have htag : ft.tagId = t := hpred.symm.trans hid
        constructor
        · unfold hasTag hasPair
          rw [List.any_eq_true]
          refine ⟨ft, hft.1, ?_⟩
          simp only [Bool.and_eq_true, beq_iff_eq]
          exact ⟨beq_iff_eq.mp hft.2, htag⟩
        · rw [htag] at hfind
          rw [hfind]
          exact hdim
      · rw [if_neg hdim] at hemit
        cases hemit
  · rintro ⟨hp, hj⟩
    unfold hasTag hasPair at hp
    rw [List.any_eq_true] at hp
    obtain ⟨ft, hft, hcond⟩ := hp
    simp only [Bool.and_eq_true, beq_iff_eq] at hcond
    refine ⟨ft, List.mem_filter.mpr ⟨hft, beq_iff_eq.mpr hcond.1⟩, ?_⟩
    rw [hcond.2]
    cases hfind : db.tags.find? (fun tg => tg.id == t) with
    | none => rw [hfind] at hj; cases hj
    | some tg =>
      rw [hfind] at hj
      dsimp only at hj
      dsimp only
      rw [if_pos hj]
      have hid : tg.id = t := by
        have h := List.find?_some hfind
        simpa using h
      rw [hid]

/-- C6: an additive batch assignment on an existing file succeeds as a
whole; exactly the tag ids whose insert violates the foreign key (no such
tag row) are skipped and warned about, the rest are applied (a pair is
associated afterwards iff it was before or is a valid id of the batch),
and the response carries the file's complete resulting tag list — in
particular every previously associated (joinable) tag still appears in it. -/
theorem C6_batch_fault_tolerant (db : DB) (fid : Int) (tagIds : List Int)
    (uid fid' t' : Int) (now : Nat)
    (hf : db.files.any (fun f => f.id == fid) = true) :
    assignTags db fid tagIds uid false now =
      Except.ok (afterAssign db fid tagIds uid now,
        fileTagsOf (afterAssign db fid tagIds uid now) fid,
        tagIds.filter (fun t => !tagExists db t)) ∧
    (hasTag (afterAssign db fid tagIds uid now) fid' t' = true ↔
      (hasTag db fid' t' = true ∨
        (fid' = fid ∧ t' ∈ tagIds ∧ tagExists db t' = true))) ∧
    (hasTag db fid t' = true → tagJoinExists db t' = true →
      t' ∈ fileTagsOf (afterAssign db fid tagIds uid now) fid) := by
  refine ⟨?_, ?_, ?_⟩
  · unfold assignTags afterAssign
    rw [if_pos hf]
    simp only [Bool.false_eq_true, if_false, insertAll_warnings]
  · exact hasPair_insertAll db db.fileTags fid tagIds uid now fid' t'
  · intro hp hj
    refine mem_fileTagsOf.mpr ⟨?_, hj⟩
    exact (hasPair_insertAll db db.fileTags fid tagIds uid now fid t').mpr
      (Or.inl hp)

/-- C7: re-assigning an already-present `(file, tag)` pair in additive mode
succeeds and leaves the association rows unchanged except that the matching
row's `assigned_at` is refreshed; in particular the list of
`(file_id, tag_id)` pairs — the association set — and its size are exactly
as before. -/
theorem C7_reassign_idempotent (db : DB) (fid t uid : Int) (now : Nat)
    (hf : db.files.any (fun f => f.id == fid) = true)
    (hex : tagExists db t = true)
    (ha : hasTag db fid t = true) :
    respOk (assignTags db fid [t] uid false now) = true ∧
    (afterAssign db fid [t] uid now).fileTags =
      db.fileTags.map (fun ft =>
        if ft.fileId == fid && ft.tagId == t then { ft with assignedAt := now }
        else ft) ∧
    (afterAssign db fid [t] uid now).fileTags.map
        (fun ft => (ft.fileId, ft.tagId)) =
      db.fileTags.map (fun ft => (ft.fileId, ft.tagId)) ∧
    (afterAssign db fid [t] uid now).fileTags.length = db.fileTags.length := by
  have hstate : (afterAssign db fid [t] uid now).fileTags =
      db.fileTags.map (fun ft =>
        if ft.fileId == fid && ft.tagId == t then { ft with assignedAt := now }
        else ft) := by
    unfold afterAssign
    simp only [insertAll]
    unfold insertFileTag
    rw [if_pos hex, if_pos (show hasPair db.fileTags fid t = true from ha)]
  refine ⟨?_, hstate, ?_, ?_⟩
  · unfold assignTags
    rw [if_pos hf]
    simp only [Bool.false_eq_true, if_false, respOk]
  · rw [hstate, List.map_map]
    apply List.map_congr_left
    intro ft _
    by_cases hm : (ft.fileId == fid && ft.tagId == t) = true <;>
      simp [Function.comp, hm]
  · rw [hstate, List.length_map]

/-! ## Witnesses: the claim theorems applied at concrete inputs -/

/-- Witness for C1 at the §8 scenario database: file B (id 101, tags 1,2,3)
and selection `[1, 3]`. -/
theorem C1_and_exactness_witness :
    ((101 : Int) ∈ matchingFiles exDb 1 [1, 3] ↔
      matchedCount exDb 101 [1, 3] = 2) ∧
    (matchedCount exDb 101 [1, 3] = 2 ↔
      [(1 : Int), 3].all (fun t => hasTag exDb 101 t) = true) :=
  C1_and_exactness exDb 1 [1, 3] ⟨101, 1, 6⟩ (by decide) (by decide) (by decide)
    (by decide) (by decide) rfl

/-- Witness for C3: forward count of tag 2 under selection `[1, 3]`. -/
theorem C3_forward_count_not_selected_witness :
    navCount exDb 1 [1, 3] 2 = specMatchCount exDb 1 ([1, 3] ++ [2]) :=
  C3_forward_count_not_selected exDb 1 [1, 3] 2 (by decide) (by decide)

/-- Witness for C4: forward count of tag 2 under selection `[1]`. -/
theorem C4_forward_le_total_witness :
    navCount exDb 1 [1] 2 ≤ navTotal exDb 1 [1] :=
  C4_forward_le_total exDb 1 [1] 2 (by decide)

/-- Witness for C5: file 101 matches `[1, 3]`, hence also `[1]`. -/
theorem C5_monotone_witness : (101 : Int) ∈ matchSet exDb 1 [1] :=
  C5_monotone exDb 1 [1] [1, 3] 101 (by decide) (by decide) (by decide)
    (by decide)

/-- Witness for C6: the §8 scenario of an unknown tag id 999 alongside the
valid id 2, assigned to file 100. -/
theorem C6_batch_fault_tolerant_witness :
    assignTags exDb 100 [999, 2] 1 false 9 =
      Except.ok (afterAssign exDb 100 [999, 2] 1 9,
        fileTagsOf (afterAssign exDb 100 [999, 2] 1 9) 100,
        [(999 : Int), 2].filter (fun t => !tagExists exDb t)) ∧
    (hasTag (afterAssign exDb 100 [999, 2] 1 9) 100 2 = true ↔
      (hasTag exDb 100 2 = true ∨
        ((100 : Int) = 100 ∧ (2 : Int) ∈ [(999 : Int), 2] ∧
          tagExists exDb 2 = true))) ∧
    (hasTag exDb 100 2 = true → tagJoinExists exDb 2 = true →
      (2 : Int) ∈ fileTagsOf (afterAssign exDb 100 [999, 2] 1 9) 100) :=
  C6_batch_fault_tolerant exDb 100 [999, 2] 1 100 2 9 (by decide)

/-- Witness for C7: re-assigning tag 1 to file 100, which already has it. -/
theorem C7_reassign_idempotent_witness :
    respOk (assignTags exDb 100 [1] 1 false 9) = true ∧
    (afterAssign exDb 100 [1] 1 9).fileTags =
      exDb.fileTags.map (fun ft =>
        if ft.fileId == 100 && ft.tagId == 1 then { ft with assignedAt := 9 }
        else ft) ∧
    (afterAssign exDb 100 [1] 1 9).fileTags.map
        (fun ft => (ft.fileId, ft.tagId)) =
      exDb.fileTags.map (fun ft => (ft.fileId, ft.tagId)) ∧
    (afterAssign exDb 100 [1] 1 9).fileTags.length = exDb.fileTags.length :=
  C7_reassign_idempotent exDb 100 1 1 9 (by decide) (by decide) (by decide)

/-- Witness for C8 (amended): a token list with blank tokens still succeeds
on both endpoints. -/
theorem C8_amended_blank_tokens_dropped_witness :
    respOk (getFiles exDb 1 " 1 , ,3 " 100 0) = true ∧
    respOk (cgridNavigate exDb 1 " 1 , ,3 ") = true :=
  C8_amended_blank_tokens_dropped exDb 1 100 0 " 1 , ,3 " (by decide)

/-- Witness for C10: the duplicated selection `"1,1"` matches nothing even
though files 100 and 101 carry tag 1. -/
theorem C10_duplicate_selection_empty_witness :
    getFiles exDb 1 "1,1" 100 0 = Except.ok [] ∧ navTotal exDb 1 [1, 1] = 0 :=
  C10_duplicate_selection_empty exDb 1 "1,1" [1, 1] 100 0 (by decide) (by decide)

end Peacenames
